import Mathlib

/-!
Verification of the QuantikAI financial RAG service against its
natural-language specification.  The definitions below are a shallow
embedding of the Python sources `main.py`, `prepare_corpus.py` and
`prepare_corpus_new.py`: module-level globals become an explicit state
record, HTTP handlers become pure functions from that state (plus the
behaviour of the external provider, which is a parameter) to a response,
and file contents are lists of characters.
-/

namespace QuantikAI

/-! ## Substring machinery (used to inspect fixed strings of the source) -/

/-- `isLeadOf n l` is true when the list `n` is an initial segment of `l`
(the embedding of Python's `str.startswith`). -/
def isLeadOf : List Char → List Char → Bool
  | [], _ => true
  | _ :: _, [] => false
  | a :: as, b :: bs => a == b && isLeadOf as bs

/-- `occursIn n l` is true when `n` occurs contiguously inside `l`
(the embedding of Python's `in` on strings). -/
def occursIn (n : List Char) : List Char → Bool
  | [] => isLeadOf n []
  | b :: bs => isLeadOf n (b :: bs) || occursIn n bs

/-- Substring test on `String`s. -/
def strOccursIn (n h : String) : Bool := occursIn n.toList h.toList

/-! ## Data model of `main.py`

`google.genai` message parts and events, the agent, the runner and the
module-level globals of `main.py` (`rag_agent`, `rag_runner`,
`session_service`). -/

/-- A `types.Part`: carries an optional text field. -/
structure Part where
  text : Option String
deriving DecidableEq, Repr

/-- An event yielded by `Runner.run_async`: optional content holding a
(possibly empty) list of parts.  `none` models a falsy `event.content`. -/
structure Event where
  content : Option (List Part)
deriving DecidableEq, Repr

/-- The behaviour of one `run_async` provider call: either a stream of
events or a raised exception carrying a message. -/
inductive RunResult where
  | events (es : List Event)
  | error (msg : String)
deriving DecidableEq, Repr

/-- The `LlmAgent` constructed in `initialize_rag_components`. -/
structure LlmAgent where
  model : String
  name : String
  instruction : String
deriving DecidableEq, Repr

/-- The `Runner` constructed in `initialize_rag_components`. -/
structure Runner where
  app_name : String
  agent : LlmAgent
deriving DecidableEq, Repr

/-- The module-level globals of `main.py`.  Each is `None` until
`initialize_rag_components` assigns it. -/
structure RagState where
  rag_agent : Option LlmAgent
  rag_runner : Option Runner
  session_service : Option Unit
deriving DecidableEq, Repr

/-- The globals at module load: all three are `None`. -/
def initialState : RagState :=
  { rag_agent := none, rag_runner := none, session_service := none }

/-- The literal instruction string passed to `LlmAgent` in
`initialize_rag_components` (`main.py` lines 55–59). -/
def agentInstruction : String :=
  "You are a financial assistant that helps users understand financial documents and invoices.\n\nProvide helpful and accurate answers to questions about financial documents.\nIf you don\x27t know the answer, just say that you don\x27t know.\nKeep your answers concise and accurate."

/-- `initialize_rag_components` (`main.py` lines 37–74): when `RAG_CORPUS`
is falsy (unset or empty) it only prints a warning — the returned `Bool`
records that warning — and in every case it assigns the agent, the session
service and the runner.  The input state is overwritten wholesale. -/
def initialize_rag_components (ragCorpus : Option String) : RagState × Bool :=
  let warned : Bool :=
    match ragCorpus with
    | none => true
    | some s => s == ""
  let agent : LlmAgent :=
    { model := "gemini-1.5-flash"
      name := "financial_assistant"
      instruction := agentInstruction }
  ({ rag_agent := some agent
     rag_runner := some { app_name := "financial_rag_api", agent := agent }
     session_service := some () }, warned)

/-- The FastAPI startup hook (`main.py` lines 124–127): initializes the
RAG components unless the environment variable `INDEXING_MODE` equals
`"true"`. -/
def startup_event (indexingMode : Option String) (ragCorpus : Option String)
    (st : RagState) : RagState :=
  if indexingMode == some "true" then st
  else (initialize_rag_components ragCorpus).fst

/-- `GET /health` (`main.py` lines 129–132): status code 200 and the body
`status: OK`, reading nothing from the globals. -/
def health_check (_st : RagState) : Nat × List (String × String) :=
  (200, [("status", "OK")])

/-- The texts collected from one event by the loop in `query_rag`
(`main.py` lines 173–177): skipped when `event.content` is falsy or its
part list is empty; within an event, a part contributes its text exactly
when that text is truthy (present and non-empty). -/
def eventAnswerParts (ev : Event) : List String :=
  match ev.content with
  | none => []
  | some parts =>
    if parts.isEmpty then []
    else
      parts.foldl (fun acc p =>
        match p.text with
        | some t => if t == "" then acc else acc ++ [t]
        | none => acc) []

/-- The full `answer_parts` list accumulated over the event stream
(`main.py` lines 167–177). -/
def answerParts (es : List Event) : List String :=
  es.foldl (fun acc ev => acc ++ eventAnswerParts ev) []

/-- `answer = " ".join(answer_parts) if answer_parts else
"No response generated."` (`main.py` line 180). -/
def combineAnswer (parts : List String) : String :=
  if parts.isEmpty then "No response generated."
  else String.intercalate " " parts

/-- The 503 detail string of `query_rag` (`main.py` line 143). -/
def notInitializedDetail : String :=
  "RAG agent is not initialized. Please ensure the server has started correctly."

/-- The 500 detail string of `query_rag` (`main.py` line 191). -/
def queryErrorDetail (msg : String) : String :=
  "An error occurred while processing the query: " ++ msg

/-- Outcome of an HTTP handler: a 200 response carrying the generated
answer, or an `HTTPException` with a status code and a detail string. -/
inductive HandlerResult where
  | ok (answer : String)
  | httpError (status : Nat) (detail : String)
deriving DecidableEq, Repr

/-- `POST /query` (`main.py` lines 134–192).  Returns the handler outcome
together with the number of `run_async` provider invocations the handler
performed (0 when it rejects before calling the provider, 1 otherwise —
the source contains a single, unretried call). -/
def query_rag (st : RagState) (provider : RunResult) : HandlerResult × Nat :=
  if st.rag_runner.isNone || st.session_service.isNone then
    (.httpError 503 notInitializedDetail, 0)
  else
    match provider with
    | .events es => (.ok (combineAnswer (answerParts es)), 1)
    | .error msg => (.httpError 500 (queryErrorDetail msg), 1)

/-! ## Data model of `prepare_corpus.py` and `prepare_corpus_new.py`

The indexing CLI.  Interaction with Vertex AI is reduced to parameters:
whether corpus creation succeeds, which PDF files the source directory
holds, and which of them upload successfully.  The `.env` file is a list
of characters; a missing `.env` is modelled as the empty content, which
the source treats identically (`lines = []` in both cases, and the write
creates the file). -/

/-- `readlines` of Python: splits a character list into lines, each
keeping its terminating newline; the final line may lack one. -/
def readlines : List Char → List (List Char)
  | [] => []
  | c :: cs =>
    if c = '\n' then ['\n'] :: readlines cs
    else
      match readlines cs with
      | [] => [[c]]
      | l :: ls => (c :: l) :: ls

/-- Erase every newline character of a line. -/
def dropNL (l : List Char) : List Char := l.filter (fun c => c != '\n')

/-- The logical lines of a file content, newline terminators stripped
(Python's `splitlines` for contents whose only line break is `\n`). -/
def splitlines (s : List Char) : List (List Char) :=
  (readlines s).map dropNL

/-- The key the script rewrites in `.env`. -/
def ragKey : List Char := "RAG_CORPUS=".toList

/-- `line.startswith("RAG_CORPUS=")` (`prepare_corpus.py` line 122). -/
def startsWithRag (l : List Char) : Bool := isLeadOf ragKey l

/-- `update_env_file` (`prepare_corpus.py` lines 108–131) as a content
transformation: read the lines, drop every line beginning with
`RAG_CORPUS=`, append the single element `"\nRAG_CORPUS=<name>\n"`, and
write the concatenation back. -/
def update_env_file (content : List Char) (corpusName : List Char) : List Char :=
  let lines := readlines content
  let kept := lines.filter (fun l => !startsWithRag l)
  (kept ++ ['\n' :: (ragKey ++ corpusName ++ ['\n'])]).flatten

/-- `upload_documents` (`prepare_corpus.py` lines 67–105): empty result
when the data directory is missing or holds no PDFs; otherwise one upload
attempt per file in order, a failing file caught-and-skipped, the
successes accumulated. -/
def upload_documents (dirExists : Bool) (pdfFiles : List String)
    (uploadOk : String → Bool) : List String :=
  if !dirExists then []
  else if pdfFiles.isEmpty then []
  else pdfFiles.foldl (fun acc f => if uploadOk f then acc ++ [f] else acc) []

/-- The GCS object URI built for a file (`prepare_corpus_new.py`
lines 101–107). -/
def gcsUri (bucketName fileName : String) : String :=
  "gs://" ++ bucketName ++ "/documents/" ++ fileName

/-- `upload_pdfs_to_gcs` (`prepare_corpus_new.py` lines 76–114): like
`upload_documents` but files whose path contains `:Zone.Identifier` are
skipped before any upload is attempted, and the successes are recorded as
GCS URIs. -/
def upload_pdfs_to_gcs (dirExists : Bool) (pdfFiles : List String)
    (uploadOk : String → Bool) (bucketName : String) : List String :=
  if !dirExists then []
  else if pdfFiles.isEmpty then []
  else pdfFiles.foldl (fun acc f =>
    if occursIn ":Zone.Identifier".toList f.toList then acc
    else if uploadOk f then acc ++ [gcsUri bucketName f] else acc) []

/-- Observable outcome of one run of the `prepare_corpus.py` CLI. -/
structure PrepareResult where
  exitCode : Nat
  corpusCreated : Bool
  uploadedFiles : List String
  envContent : List Char
  envWritten : Bool
deriving DecidableEq, Repr

/-- `main` of `prepare_corpus.py` (lines 135–175): create the corpus
(raising aborts with exit code 1 and no further effect), then upload the
documents, then rewrite `.env` — unconditionally, also when zero
documents were found — and exit with code 0. -/
def prepare_corpus_main (createOk : Bool) (corpusName : List Char)
    (dirExists : Bool) (pdfFiles : List String) (uploadOk : String → Bool)
    (envContent : List Char) : PrepareResult :=
  if !createOk then
    { exitCode := 1, corpusCreated := false, uploadedFiles := []
      envContent := envContent, envWritten := false }
  else
    let uploaded := upload_documents dirExists pdfFiles uploadOk
    let env2 := update_env_file envContent corpusName
    { exitCode := 0, corpusCreated := true, uploadedFiles := uploaded
      envContent := env2, envWritten := true }

/-! ## Line-shape lemmas for the `.env` rewrite -/

/-- A line as `readlines` produces it: newline-terminated with no interior
newline, or newline-free. -/
def Shaped (l : List Char) : Prop :=
  (∃ m, l = m ++ ['\n'] ∧ '\n' ∉ m) ∨ '\n' ∉ l

/-- Line lists in which every line is newline-terminated except possibly
the last, which is newline-free. -/
inductive ShapedList : List (List Char) → Prop
  | nil : ShapedList []
  | single (l : List Char) : '\n' ∉ l → ShapedList [l]
  | cons (m : List Char) (ls : List (List Char)) :
      '\n' ∉ m → ShapedList ls → ShapedList ((m ++ ['\n']) :: ls)

theorem readlines_term (m : List Char) (hm : '\n' ∉ m) (rest : List Char) :
    readlines (m ++ '\n' :: rest) = (m ++ ['\n']) :: readlines rest := by
  induction m with
  | nil => simp [readlines]
  | cons c m ih =>
    have hc : ¬ (c = '\n') := fun h => hm (h ▸ List.mem_cons_self c m)
    have hm' : '\n' ∉ m := fun h => hm (List.mem_cons_of_mem _ h)
    simp only [List.cons_append, readlines, if_neg hc, List.append_eq, ih hm']

theorem shapedList_inv {l : List Char} {ls : List (List Char)}
    (h : ShapedList (l :: ls)) :
    ('\n' ∉ l ∧ ls = []) ∨ ∃ m, l = m ++ ['\n'] ∧ '\n' ∉ m ∧ ShapedList ls := by
  generalize hE : l :: ls = E at h
  induction h with
  | nil => exact absurd hE (List.cons_ne_nil _ _)
  | single x hx =>
    injection hE with h1 h2
    subst h1; subst h2
    exact Or.inl ⟨hx, rfl⟩
  | cons m ms hm hms ih =>
    injection hE with h1 h2
    subst h1; subst h2
    exact Or.inr ⟨m, rfl, hm, hms⟩

theorem readlines_shaped (s : List Char) : ShapedList (readlines s) := by
  induction s with
  | nil => exact ShapedList.nil
  | cons c cs ih =>
    by_cases hc : c = '\n'
    · subst hc
      rw [show readlines ('\n' :: cs) = ['\n'] :: readlines cs from by
        simp [readlines]]
      exact ShapedList.cons [] _ (by simp) ih
    · rcases hr : readlines cs with _ | ⟨l, ls⟩
      · rw [show readlines (c :: cs) = [[c]] from by simp [readlines, hc, hr]]
        exact ShapedList.single [c]
          (fun h => hc (List.mem_singleton.mp h).symm)
      · rw [show readlines (c :: cs) = (c :: l) :: ls from by
          simp [readlines, hc, hr]]
        rw [hr] at ih
        rcases shapedList_inv ih with ⟨hl, rfl⟩ | ⟨m2, rfl, hm, hls⟩
        · exact ShapedList.single (c :: l) (by
            intro h
            rcases List.mem_cons.mp h with h | h
            · exact hc h.symm
            · exact hl h)
        · rw [show c :: (m2 ++ ['\n']) = (c :: m2) ++ ['\n'] from rfl]
          refine ShapedList.cons (c :: m2) ls ?_ hls
          intro h
          rcases List.mem_cons.mp h with h | h
          · exact hc h.symm
          · exact hm h

theorem shapedList_filter (p : List Char → Bool) {L : List (List Char)}
    (h : ShapedList L) : ShapedList (L.filter p) := by
  induction h with
  | nil => exact ShapedList.nil
  | single l hl =>
    by_cases hp : p l
    · simpa [List.filter_cons, hp] using ShapedList.single l hl
    · simpa [List.filter_cons, hp] using ShapedList.nil
  | cons m ls hm hls ih =>
    by_cases hp : p (m ++ ['\n'])
    · simpa [List.filter_cons, hp] using ShapedList.cons m _ hm ih
    · simpa [List.filter_cons, hp] using ih

theorem shaped_of_mem {L : List (List Char)} (h : ShapedList L)
    {l : List Char} (hl : l ∈ L) : Shaped l := by
  induction h with
  | nil => cases hl
  | single x hx =>
    rcases List.mem_singleton.mp hl with rfl
    exact Or.inr hx
  | cons m ls hm hls ih =>
    rcases List.mem_cons.mp hl with rfl | h
    · exact Or.inl ⟨m, rfl, hm⟩
    · exact ih h

/-- Does a line end with a newline character? -/
def endsNL (l : List Char) : Bool := l.getLast? == some '\n'

/-- What becomes of a line list when a raw `'\n'` is concatenated after
it: a trailing unterminated line absorbs the newline, otherwise the
newline forms a line of its own. -/
def mergeNL : List (List Char) → List (List Char)
  | [] => [['\n']]
  | [l] => if endsNL l then [l, ['\n']] else [l ++ ['\n']]
  | l :: l' :: ls => l :: mergeNL (l' :: ls)

theorem endsNL_eq_false {l : List Char} (hl : '\n' ∉ l) : endsNL l = false := by
  cases h : l.getLast? with
  | none => simp [endsNL, h]
  | some a =>
    have ha : a ∈ l := by
      obtain ⟨hne, rfl⟩ :=
        List.mem_getLast?_eq_getLast (l := l) (x := a) (by simp [h])
      exact List.getLast_mem hne
    have : ¬ (a = '\n') := fun hh => hl (hh ▸ ha)
    simp [endsNL, h, this]

theorem readlines_flatten (F : List (List Char)) (hF : ShapedList F)
    (t : List Char) (ht : '\n' ∉ t) :
    readlines (F.flatten ++ '\n' :: (t ++ ['\n']))
      = mergeNL F ++ [t ++ ['\n']] := by
  induction hF with
  | nil =>
    simp only [List.flatten_nil, List.nil_append]
    rw [show ('\n' :: (t ++ ['\n'])) = [] ++ '\n' :: (t ++ ['\n']) from rfl,
      readlines_term [] (by simp) _,
      show t ++ ['\n'] = t ++ '\n' :: [] from rfl,
      readlines_term t ht []]
    simp [mergeNL, readlines]
  | single l hl =>
    rw [show List.flatten [l] = l from by simp]
    rw [show l ++ '\n' :: (t ++ ['\n']) = l ++ '\n' :: (t ++ ['\n']) from rfl,
      readlines_term l hl,
      show t ++ ['\n'] = t ++ '\n' :: [] from rfl,
      readlines_term t ht []]
    simp [mergeNL, endsNL_eq_false hl, readlines]
  | cons m ls hm hls ih =>
    rw [show ((m ++ ['\n']) :: ls).flatten ++ '\n' :: (t ++ ['\n'])
        = m ++ '\n' :: (ls.flatten ++ '\n' :: (t ++ ['\n'])) from by
      simp [List.flatten_cons, List.append_assoc]]
    rw [readlines_term m hm, ih]
    cases ls with
    | nil =>
      have hend : endsNL (m ++ ['\n']) = true := by
        simp [endsNL, List.getLast?_concat]
      simp [mergeNL, hend]
    | cons a ls' => simp [mergeNL]

theorem dropNL_of_not_mem {l : List Char} (hl : '\n' ∉ l) : dropNL l = l := by
  refine List.filter_eq_self.mpr ?_
  intro a ha
  have : ¬ (a = '\n') := fun hh => hl (hh ▸ ha)
  simpa using this

theorem dropNL_term (m : List Char) : dropNL (m ++ ['\n']) = dropNL m := by
  simp [dropNL, List.filter_append]

theorem mergeNL_map_dropNL (F : List (List Char)) :
    (mergeNL F).map dropNL = F.map dropNL ++ [[]]
      ∨ (mergeNL F).map dropNL = F.map dropNL := by
  induction F with
  | nil => left; simp [mergeNL, dropNL]
  | cons l ls ih =>
    cases ls with
    | nil =>
      by_cases h : endsNL l
      · left; simp [mergeNL, h, dropNL]
      · right; simp [mergeNL, h, dropNL_term]
    | cons a ls' =>
      rcases ih with h | h
      · left; simp [mergeNL, List.map_cons, h]
      · right; simp [mergeNL, List.map_cons, h]

theorem isLeadOf_append_self (n m : List Char) : isLeadOf n (n ++ m) = true := by
  induction n with
  | nil => rfl
  | cons a as ih => simp [isLeadOf, ih]

theorem isLeadOf_concat_newline {n : List Char} (hn : '\n' ∉ n) :
    ∀ m : List Char, isLeadOf n (m ++ ['\n']) = isLeadOf n m := by
  induction n with
  | nil => intro m; rfl
  | cons a as ih =>
    intro m
    have ha : ¬ (a = '\n') := fun hh => hn (hh ▸ List.mem_cons_self a as)
    have hn' : '\n' ∉ as := fun hh => hn (List.mem_cons_of_mem _ hh)
    cases m with
    | nil => simp [isLeadOf, ha]
    | cons b bs => simp [isLeadOf, ih hn' bs]

theorem startsWithRag_dropNL {l : List Char} (hl : Shaped l) :
    startsWithRag (dropNL l) = startsWithRag l := by
  have hkey : '\n' ∉ ragKey := by decide
  rcases hl with ⟨m, rfl, hm⟩ | hl
  · rw [dropNL_term, dropNL_of_not_mem hm, startsWithRag, startsWithRag,
      isLeadOf_concat_newline hkey]
  · rw [dropNL_of_not_mem hl]

theorem filter_map_dropNL (p : List Char → Bool) (L : List (List Char))
    (h : ∀ l ∈ L, p (dropNL l) = p l) :
    (L.map dropNL).filter p = (L.filter p).map dropNL := by
  induction L with
  | nil => rfl
  | cons l ls ih =>
    have hl := h l (List.mem_cons_self l ls)
    have ih' := ih fun x hx => h x (List.mem_cons_of_mem _ hx)
    by_cases hp : p l
    · simp [List.filter_cons, hl, hp, ih']
    · simp [List.filter_cons, hl, hp, ih']

/-- The `.env` rewrite in full: the kept logical lines of the prior
content form a sublist of the result's logical lines, and exactly one
result line begins with `RAG_CORPUS=`, carrying the corpus name. -/
theorem update_env_file_spec (content name : List Char) (hname : '\n' ∉ name) :
    List.Sublist ((splitlines content).filter (fun l => !startsWithRag l))
        (splitlines (update_env_file content name))
      ∧ (splitlines (update_env_file content name)).filter
          (fun l => startsWithRag l) = [ragKey ++ name] := by
  have hkey : '\n' ∉ ragKey := by decide
  set F := (readlines content).filter (fun l => !startsWithRag l) with hFdef
  have hshape : ShapedList F := shapedList_filter _ (readlines_shaped content)
  have ht : '\n' ∉ ragKey ++ name := by
    intro h
    rcases List.mem_append.mp h with h | h
    · exact hkey h
    · exact hname h
  have hupd : update_env_file content name
      = F.flatten ++ '\n' :: ((ragKey ++ name) ++ ['\n']) := by
    simp [update_env_file, hFdef, List.flatten_append, List.append_assoc]
  have hreadl : readlines (update_env_file content name)
      = mergeNL F ++ [(ragKey ++ name) ++ ['\n']] := by
    rw [hupd]; exact readlines_flatten F hshape _ ht
  have hsplit : splitlines (update_env_file content name)
      = (mergeNL F).map dropNL ++ [ragKey ++ name] := by
    have hlast : dropNL (ragKey ++ (name ++ ['\n'])) = ragKey ++ name := by
      rw [← List.append_assoc, dropNL_term, dropNL_of_not_mem ht]
    simp [splitlines, hreadl, hlast]
  have hmemF : ∀ l ∈ F, startsWithRag l = false := by
    intro l hl
    have := (List.mem_filter.mp hl).2
    simpa using this
  have hmemShape : ∀ l ∈ F, Shaped l := fun l hl =>
    shaped_of_mem (readlines_shaped content) (List.mem_filter.mp hl).1
  have hFdrop : (F.map dropNL).filter (fun l => startsWithRag l) = [] := by
    refine List.filter_eq_nil_iff.mpr ?_
    intro a ha
    obtain ⟨l, hlF, rfl⟩ := List.mem_map.mp ha
    rw [startsWithRag_dropNL (hmemShape l hlF), hmemF l hlF]
    simp
  have hMdrop : ((mergeNL F).map dropNL).filter (fun l => startsWithRag l)
      = [] := by
    rcases mergeNL_map_dropNL F with h | h <;> rw [h]
    · rw [List.filter_append, hFdrop]
      have : startsWithRag ([] : List Char) = false := by decide
      simp [List.filter_cons, this]
    · exact hFdrop
  constructor
  · have h1 : (splitlines content).filter (fun l => !startsWithRag l)
        = F.map dropNL := by
      rw [splitlines, hFdef]
      exact filter_map_dropNL _ _ fun l hl => by
        rw [startsWithRag_dropNL (shaped_of_mem (readlines_shaped content) hl)]
    rw [h1, hsplit]
    rcases mergeNL_map_dropNL F with h | h <;> rw [h]
    · exact (List.sublist_append_left _ _).trans (List.sublist_append_left _ _)
    · exact List.sublist_append_left _ _
  · rw [hsplit, List.filter_append, hMdrop, List.nil_append]
    have : startsWithRag (ragKey ++ name) = true := isLeadOf_append_self ragKey name
    simp [List.filter_cons, this]

/-! ## Fold lemmas for the upload loops -/

theorem foldl_ok_filter {α : Type} (p : α → Bool) :
    ∀ (l : List α) (acc : List α),
      l.foldl (fun acc x => if p x then acc ++ [x] else acc) acc
        = acc ++ l.filter p := by
  intro l
  induction l with
  | nil => intro acc; simp
  | cons x xs ih =>
    intro acc
    by_cases hp : p x
    · simp [List.foldl_cons, hp, ih, List.filter_cons, List.append_assoc]
    · simp [List.foldl_cons, hp, ih, List.filter_cons]

theorem foldl_skip_filter_map {α β : Type} (z p : α → Bool) (f : α → β) :
    ∀ (l : List α) (acc : List β),
      l.foldl (fun acc x => if z x then acc else if p x then acc ++ [f x] else acc) acc
        = acc ++ (l.filter (fun x => !z x && p x)).map f := by
  intro l
  induction l with
  | nil => intro acc; simp
  | cons x xs ih =>
    intro acc
    by_cases hz : z x
    · simp [List.foldl_cons, hz, ih, List.filter_cons]
    · by_cases hp : p x
      · simp [List.foldl_cons, hz, hp, ih, List.filter_cons, List.append_assoc]
      · simp [List.foldl_cons, hz, hp, ih, List.filter_cons]

/-! ## Claims -/

set_option maxRecDepth 8192

/-- C1: a `POST /query` received while the RAG components are not
initialized (`rag_runner` or `session_service` is `None`) yields HTTP 503
with the fixed detail — which carries the text "not initialized" — and
performs zero provider invocations, hence never returns a generated
answer. -/
theorem c1_query_rejected_before_init (st : RagState) (p : RunResult)
    (h : st.rag_runner = none ∨ st.session_service = none) :
    query_rag st p = (.httpError 503 notInitializedDetail, 0)
      ∧ strOccursIn "not initialized" notInitializedDetail = true := by
  constructor
  · have hcond : (st.rag_runner.isNone || st.session_service.isNone) = true := by
      rcases h with h | h <;> simp [h]
    simp [query_rag, hcond]
  · decide

theorem c1_witness :
    (initialState.rag_runner = none ∨ initialState.session_service = none)
      ∧ (query_rag initialState (.events []) = (.httpError 503 notInitializedDetail, 0)
          ∧ strOccursIn "not initialized" notInitializedDetail = true) :=
  ⟨Or.inl rfl,
    c1_query_rejected_before_init initialState (.events []) (Or.inl rfl)⟩

/-- C2 counterexample: with the components initialized (here by a normal
startup with `RAG_CORPUS` set) and a provider run that yields no answer
content at all, the handler returns the 200 response
`ok "No response generated."` — a default answer in place of a reported
failure, contradicting the claim. -/
theorem c2_counterexample :
    (query_rag
        (startup_event none (some "projects/p/locations/l/ragCorpora/c") initialState)
        (.events [])).fst
      = .ok "No response generated." := by rfl

/-- C2 as amended: when the provider run raises no exception but produces
no answer content, the handler returns HTTP 200 with the fixed default
answer string `"No response generated."` (after exactly one provider
call), rather than reporting a failure. -/
theorem c2_default_answer (st : RagState) (es : List Event)
    (h1 : st.rag_runner.isSome = true) (h2 : st.session_service.isSome = true)
    (h3 : answerParts es = []) :
    query_rag st (.events es) = (.ok "No response generated.", 1) := by
  have hcond : (st.rag_runner.isNone || st.session_service.isNone) = false := by
    rcases st with ⟨a, r, s⟩
    cases r <;> cases s <;> simp_all
  simp [query_rag, hcond, combineAnswer, h3]

theorem c2_witness :
    ((initialize_rag_components (some "corpus")).fst.rag_runner.isSome = true)
      ∧ ((initialize_rag_components (some "corpus")).fst.session_service.isSome = true)
      ∧ answerParts [] = []
      ∧ query_rag (initialize_rag_components (some "corpus")).fst (.events [])
          = (.ok "No response generated.", 1) :=
  ⟨rfl, rfl, rfl, c2_default_answer _ [] rfl rfl rfl⟩

/-- C3 counterexample: after a startup with `RAG_CORPUS` unset
(`ragCorpus = none`), a query is answered by the model — the handler
returns the generated text, not a "service not ready" condition,
contradicting the claim. -/
theorem c3_counterexample :
    (query_rag (startup_event none none initialState)
        (.events [⟨some [⟨some "The invoice total is 42."⟩]⟩])).fst
      = .ok "The invoice total is 42." := by decide

/-- C3 as amended: when `RAG_CORPUS` is unset, initialization proceeds
anyway (only recording a warning) and every query against the initialized
state is answered by the generative model alone; and for every state and
every provider behaviour, a query fails with the 503 "not initialized"
condition exactly when the components were never initialized
(`rag_runner` or `session_service` is `None`) — in particular an
initialized state's provider error surfaces as a 500, never as this
503. -/
theorem c3_initialized_without_corpus :
    (∀ (c : Option String) (es : List Event),
        (query_rag (startup_event none c initialState) (.events es)).fst
          = .ok (combineAnswer (answerParts es)))
      ∧ (initialize_rag_components none).snd = true
      ∧ ∀ (st : RagState) (p : RunResult),
          (query_rag st p).fst = .httpError 503 notInitializedDetail
            ↔ (st.rag_runner = none ∨ st.session_service = none) := by
  refine ⟨?_, rfl, ?_⟩
  · intro c es
    simp [startup_event, initialize_rag_components, query_rag]
  · intro st p
    rcases st with ⟨a, r, s⟩
    cases r with
    | none => simp [query_rag]
    | some rv =>
      cases s with
      | none => simp [query_rag]
      | some sv =>
        cases p with
        | events es => simp [query_rag]
        | error msg => simp [query_rag, queryErrorDetail]

/-- C4 counterexample: running the indexing command over a source
directory with zero recognized documents exits with status 0, yet the
corpus has been created and a `RAG_CORPUS=` line carrying its resource
name has been written to `.env` — contradicting "no corpus is created and
no corpus identifier is written". -/
theorem c4_counterexample :
    (prepare_corpus_main true "projects/p/locations/l/ragCorpora/c".toList
        true [] (fun _ => true) []).exitCode = 0
      ∧ (prepare_corpus_main true "projects/p/locations/l/ragCorpora/c".toList
          true [] (fun _ => true) []).corpusCreated = true
      ∧ (splitlines (prepare_corpus_main true
            "projects/p/locations/l/ragCorpora/c".toList
            true [] (fun _ => true) []).envContent).filter
          (fun l => startsWithRag l)
          = ["RAG_CORPUS=projects/p/locations/l/ragCorpora/c".toList] := by
  refine ⟨rfl, rfl, by decide⟩

/-- C4 as amended: with zero recognized documents the indexing command
still exits 0 and uploads nothing, but the corpus is created (creation
precedes the upload step) and its resource name is written to `.env` as
the unique `RAG_CORPUS` line; a subsequent startup with that corpus
configured initializes the components, so a query is answered rather than
rejected as not ready. -/
theorem c4_zero_documents (name : List Char) (hname : '\n' ∉ name)
    (dirExists : Bool) (uploadOk : String → Bool) (env : List Char)
    (es : List Event) :
    (prepare_corpus_main true name dirExists [] uploadOk env).exitCode = 0
      ∧ (prepare_corpus_main true name dirExists [] uploadOk env).uploadedFiles = []
      ∧ (prepare_corpus_main true name dirExists [] uploadOk env).corpusCreated = true
      ∧ (splitlines (prepare_corpus_main true name dirExists [] uploadOk
            env).envContent).filter (fun l => startsWithRag l)
          = [ragKey ++ name]
      ∧ (query_rag (startup_event none (some (String.mk name)) initialState)
            (.events es)).fst
          = .ok (combineAnswer (answerParts es)) := by
  refine ⟨rfl, ?_, rfl, ?_, ?_⟩
  · cases dirExists <;> simp [prepare_corpus_main, upload_documents]
  · have h := (update_env_file_spec env name hname).2
    simpa [prepare_corpus_main] using h
  · simp [startup_event, initialize_rag_components, query_rag]

theorem c4_witness :
    ('\n' ∉ "projects/p/locations/l/ragCorpora/c".toList)
      ∧ ((prepare_corpus_main true "projects/p/locations/l/ragCorpora/c".toList
            true [] (fun _ => false) "PROJECT_ID=x\n".toList).exitCode = 0
          ∧ (prepare_corpus_main true "projects/p/locations/l/ragCorpora/c".toList
              true [] (fun _ => false) "PROJECT_ID=x\n".toList).uploadedFiles = []
          ∧ (prepare_corpus_main true "projects/p/locations/l/ragCorpora/c".toList
              true [] (fun _ => false) "PROJECT_ID=x\n".toList).corpusCreated = true
          ∧ (splitlines (prepare_corpus_main true
                "projects/p/locations/l/ragCorpora/c".toList
                true [] (fun _ => false) "PROJECT_ID=x\n".toList).envContent).filter
              (fun l => startsWithRag l)
              = [ragKey ++ "projects/p/locations/l/ragCorpora/c".toList]
          ∧ (query_rag (startup_event none
                (some (String.mk "projects/p/locations/l/ragCorpora/c".toList))
                initialState) (.events [])).fst
              = .ok (combineAnswer (answerParts []))) :=
  ⟨by decide,
    c4_zero_documents "projects/p/locations/l/ragCorpora/c".toList (by decide)
      true (fun _ => false) "PROJECT_ID=x\n".toList []⟩

/-- C5 counterexample: the instruction template contains no occurrence of
the word "context" at all, so it cannot instruct the model to answer from
the supplied context only — the claim that it encodes the full content
policy fails. -/
theorem c5_counterexample :
    strOccursIn "context" agentInstruction = false := by decide

/-- C5 as amended: the instruction template does instruct conciseness and
saying "don't know" rather than fabricating, but it contains no
instruction to answer from the supplied context only (the word "context"
does not occur in it). -/
theorem c5_template_policy :
    strOccursIn "Keep your answers concise and accurate." agentInstruction = true
      ∧ strOccursIn "If you don\x27t know the answer, just say that you don\x27t know."
          agentInstruction = true
      ∧ strOccursIn "context" agentInstruction = false := by
  exact ⟨by decide, by decide, by decide⟩

/-- C6: when the components are initialized and the provider call raises,
the handler returns exactly one HTTP 500 whose detail is the fixed prose
followed by the provider's own error description, after exactly one
(unretried) provider invocation. -/
theorem c6_provider_error_500 (st : RagState) (msg : String)
    (h1 : st.rag_runner.isSome = true) (h2 : st.session_service.isSome = true) :
    query_rag st (.error msg)
      = (.httpError 500 ("An error occurred while processing the query: " ++ msg), 1) := by
  have hcond : (st.rag_runner.isNone || st.session_service.isNone) = false := by
    rcases st with ⟨a, r, s⟩
    cases r <;> cases s <;> simp_all
  simp [query_rag, hcond, queryErrorDetail]

theorem c6_witness :
    ((initialize_rag_components (some "corpus")).fst.rag_runner.isSome = true)
      ∧ ((initialize_rag_components (some "corpus")).fst.session_service.isSome = true)
      ∧ query_rag (initialize_rag_components (some "corpus")).fst
          (.error "quota exceeded")
          = (.httpError 500
              ("An error occurred while processing the query: " ++ "quota exceeded"), 1) :=
  ⟨rfl, rfl, c6_provider_error_500 _ "quota exceeded" rfl rfl⟩

/-- C7: both upload loops fail per-file: over any discovered file list the
returned collection is exactly the (order-preserving) successful uploads —
in the GCS variant after first skipping `Zone.Identifier` artifacts — and
an empty discovery yields an empty result, not an error. -/
theorem c7_per_file_upload (pdfs : List String) (ok : String → Bool)
    (d : Bool) (bucket : String) :
    upload_documents true pdfs ok = pdfs.filter ok
      ∧ upload_documents d [] ok = []
      ∧ upload_pdfs_to_gcs true pdfs ok bucket
          = (pdfs.filter (fun f =>
              !occursIn ":Zone.Identifier".toList f.toList && ok f)).map
              (gcsUri bucket)
      ∧ upload_pdfs_to_gcs d [] ok bucket = [] := by
  refine ⟨?_, ?_, ?_, ?_⟩
  · cases pdfs with
    | nil => rfl
    | cons x xs =>
      simp only [upload_documents, Bool.not_true, List.isEmpty_cons,
        Bool.false_eq_true, if_false, foldl_ok_filter]
      by_cases h : ok x <;> simp [List.filter_cons, h]
  · cases d <;> rfl
  · cases pdfs with
    | nil => rfl
    | cons x xs =>
      simp only [upload_pdfs_to_gcs, Bool.not_true, List.isEmpty_cons,
        Bool.false_eq_true, if_false, foldl_skip_filter_map]
      by_cases hz : occursIn ":Zone.Identifier".toList x.toList
        <;> by_cases ho : ok x
        <;> simp [List.filter_cons, hz, ho]
  · cases d <;> rfl

/-- C8: `GET /health` returns status 200 with body `status: OK` for every
state of the RAG components. -/
theorem c8_health_unconditional (st : RagState) :
    health_check st = (200, [("status", "OK")]) := rfl

/-- C9: the `.env` rewrite keeps every line not beginning with
`RAG_CORPUS=` in its original order (a sublist of the result's lines),
and the result contains exactly one `RAG_CORPUS` line, whose value is the
created corpus's resource name; a missing `.env` is the empty-content
case of this statement and is created by the write. -/
theorem c9_update_env_file (content name : List Char) (hname : '\n' ∉ name) :
    List.Sublist ((splitlines content).filter (fun l => !startsWithRag l))
        (splitlines (update_env_file content name))
      ∧ (splitlines (update_env_file content name)).filter
          (fun l => startsWithRag l) = [ragKey ++ name] :=
  update_env_file_spec content name hname

theorem c9_witness :
    ('\n' ∉ "projects/1/locations/us/ragCorpora/2".toList)
      ∧ (List.Sublist
          ((splitlines "PROJECT_ID=p\nRAG_CORPUS=old\nREGION=r\n".toList).filter
            (fun l => !startsWithRag l))
          (splitlines (update_env_file "PROJECT_ID=p\nRAG_CORPUS=old\nREGION=r\n".toList
            "projects/1/locations/us/ragCorpora/2".toList))
        ∧ (splitlines (update_env_file "PROJECT_ID=p\nRAG_CORPUS=old\nREGION=r\n".toList
            "projects/1/locations/us/ragCorpora/2".toList)).filter
            (fun l => startsWithRag l)
            = [ragKey ++ "projects/1/locations/us/ragCorpora/2".toList]) :=
  ⟨by decide,
    c9_update_env_file "PROJECT_ID=p\nRAG_CORPUS=old\nREGION=r\n".toList
      "projects/1/locations/us/ragCorpora/2".toList (by decide)⟩

/-- C10: when `INDEXING_MODE` is `"true"` at startup, the startup hook
leaves the components uninitialized, so every query is rejected with the
503 "not initialized" condition and zero provider calls, while the health
endpoint still answers 200. -/
theorem c10_indexing_mode (c : Option String) (p : RunResult) :
    startup_event (some "true") c initialState = initialState
      ∧ query_rag initialState p = (.httpError 503 notInitializedDetail, 0)
      ∧ health_check initialState = (200, [("status", "OK")]) :=
  ⟨rfl, rfl, rfl⟩

end QuantikAI
